import Mathlib

/-!
# OrthanFlow front end: the route table of `frontend/frontv2/src/router/index.js`

The module imports two page components and two functions of `vue-router`, declares the
constant `routes` (an array literal of two object literals) and the constant `router`
(the result of `createRouter` applied to an object literal), and exports `router`.

The embedding keeps the literals as they are written: an object literal is the ordered list
of its `key: value` properties, an array literal is the list of its items, an imported
binding is named by the module it comes from, and a call of an imported function is kept
as the callee together with its argument list.
-/

namespace OrthanFlow

/-- The values written in the module: string literals, imported bindings, array and object
literals, calls of imported functions, and (not used by the module, present so that a
function-valued property can be told apart from a reference) arrow functions. -/
inductive JSVal where
  | str (s : String)
  | defaultImport (source : String)
  | namedImport (exported : String) (source : String)
  | array (items : List JSVal)
  | object (props : List (String × JSVal))
  | call (callee : JSVal) (args : List JSVal)
  | arrow (body : JSVal)

namespace JSVal

/-- The properties of an object literal, in the order written; no properties otherwise. -/
def props : JSVal → List (String × JSVal)
  | object ps => ps
  | _ => []

/-- The property keys of an object literal, in the order written. -/
def keys (v : JSVal) : List String :=
  v.props.map Prod.fst

/-- Property read `v.key`: of two properties with the same key the later one is read. -/
def get? (v : JSVal) (key : String) : Option JSVal :=
  v.props.reverse.lookup key

/-- The string of a string literal. -/
def asString? : JSVal → Option String
  | str s => some s
  | _ => none

/-- The items of an array literal. -/
def items? : JSVal → Option (List JSVal)
  | array xs => some xs
  | _ => none

/-- A value is function-valued when it is an arrow function. -/
def isFunction : JSVal → Bool
  | arrow _ => true
  | _ => false

/-- A value is a statically imported reference when it is an imported binding. -/
def isImported : JSVal → Bool
  | defaultImport _ => true
  | namedImport _ _ => true
  | _ => false

end JSVal

/-! ## The module -/

/-- Line 1: `import { createRouter, createWebHistory } from "vue-router";` -/
def createRouter : JSVal := .namedImport "createRouter" "vue-router"

/-- Line 1: `import { createRouter, createWebHistory } from "vue-router";` -/
def createWebHistory : JSVal := .namedImport "createWebHistory" "vue-router"

/-- Line 2: `import StudyList from "@/components/StudyList.vue";` -/
def StudyList : JSVal := .defaultImport "@/components/StudyList.vue"

/-- Line 3: `import StudentView from "@/components/Student.vue";` -/
def StudentView : JSVal := .defaultImport "@/components/Student.vue"

/-- Lines 5-8: the array literal bound to `const routes`. -/
def routes : List JSVal :=
  [ .object [("path", .str "/"), ("name", .str "StudyList"), ("component", StudyList)],
    .object [("path", .str "/student"), ("name", .str "Student"), ("component", StudentView)] ]

/-- Lines 10-13: `const router = createRouter({ history: createWebHistory(), routes });`
The shorthand property `routes` is the property `routes: routes`. -/
def router : JSVal :=
  .call createRouter
    [.object [("history", .call createWebHistory []), ("routes", .array routes)]]

/-- Line 15: `export default router;` -/
def defaultExport : JSVal := router

/-! ## Reading a route descriptor -/

/-- The `path` of a descriptor, when it is a string. -/
def routePath (d : JSVal) : Option String :=
  (d.get? "path").bind JSVal.asString?

/-- The `name` of a descriptor, when it is a string. -/
def routeName (d : JSVal) : Option String :=
  (d.get? "name").bind JSVal.asString?

/-- The `component` of a descriptor: the view rendered for it. -/
def routeComponent (d : JSVal) : Option JSVal :=
  d.get? "component"

/-! ## Navigation over a route table

The navigation controller is the `vue-router` library, which the module only imports. The
two lookups below are the ones the specification describes for this table. -/

/-- Modelled from the spec: the matching rule of the navigation controller (the imported
`vue-router` library, whose code is not in this repository), which the specification gives
as exact match: a descriptor matches a location when its `path` is that very string. -/
def matchesLocation (d : JSVal) (loc : String) : Bool :=
  routePath d == some loc

/-- Modelled from the spec: path resolution by the navigation controller (the imported
`vue-router` library), which the specification gives as first match in table order: the first
descriptor of the table that matches the location, or nothing. -/
def resolve (table : List JSVal) (loc : String) : Option JSVal :=
  table.find? (fun d => matchesLocation d loc)

/-- Modelled from the spec: the view the navigation controller (the imported `vue-router`
library) renders for a location: the `component` of the descriptor the location resolves
to. -/
def resolveView (table : List JSVal) (loc : String) : Option JSVal :=
  (resolve table loc).bind routeComponent

/-- Modelled from the spec: programmatic navigation by symbolic name in the navigation
controller (the imported `vue-router` library): the first descriptor of the table whose
`name` is the given string, or nothing. -/
def lookupName (table : List JSVal) (n : String) : Option JSVal :=
  table.find? (fun d => routeName d == some n)

/-- A two-entry table with its entries exchanged; any other table unchanged. -/
def swapEntries : List JSVal → List JSVal
  | [a, b] => [b, a]
  | t => t

/-- The characters that make a path a pattern rather than a literal. -/
def patternChars : List Char :=
  [':', '*', '(', ')', '?', '+']

/-! ## Evaluation lemmas -/

theorem resolve_routes_eq (loc : String) :
    resolve routes loc =
      if loc = "/" then routes[0]? else if loc = "/student" then routes[1]? else none := by
  have h0 : ∀ c n, routePath (.object [("path", .str "/"), ("name", n), ("component", c)])
      = some "/" := fun _ _ => rfl
  have h1 : ∀ c n, routePath (.object [("path", .str "/student"), ("name", n), ("component", c)])
      = some "/student" := fun _ _ => rfl
  by_cases a : loc = "/"
  · subst a
    rfl
  · by_cases b : loc = "/student"
    · subst b
      rfl
    · have a2 : ¬ "/" = loc := fun h => a h.symm
      have b2 : ¬ "/student" = loc := fun h => b h.symm
      simp [resolve, routes, matchesLocation, h0, h1, a, b, a2, b2]

theorem lookupName_routes_eq (n : String) :
    lookupName routes n =
      if n = "StudyList" then routes[0]? else if n = "Student" then routes[1]? else none := by
  have h0 : ∀ c p, routeName (.object [("path", p), ("name", .str "StudyList"), ("component", c)])
      = some "StudyList" := fun _ _ => rfl
  have h1 : ∀ c p, routeName (.object [("path", p), ("name", .str "Student"), ("component", c)])
      = some "Student" := fun _ _ => rfl
  by_cases a : n = "StudyList"
  · subst a
    rfl
  · by_cases b : n = "Student"
    · subst b
      rfl
    · have a2 : ¬ "StudyList" = n := fun h => a h.symm
      have b2 : ¬ "Student" = n := fun h => b h.symm
      simp [lookupName, routes, h0, h1, a, b, a2, b2]

/-! ## The route table as written -/

/-- C1: `routes` is the ordered two-entry sequence whose entry 0 has path "/" and name
"StudyList" and is bound to the component imported from `StudyList.vue`, and whose entry 1
has path "/student" and name "Student" and is bound to the component imported from
`Student.vue`. -/
theorem routes_entries :
    routes.map (fun d => (routePath d, routeName d, routeComponent d)) =
      [ (some "/", some "StudyList", some StudyList),
        (some "/student", some "Student", some StudentView) ] ∧
    StudyList = .defaultImport "@/components/StudyList.vue" ∧
    StudentView = .defaultImport "@/components/Student.vue" := by
  exact ⟨rfl, rfl, rfl⟩

/-- C2: the route table has exactly two entries. -/
theorem routes_length : routes.length = 2 := by
  decide

/-- C3: every `name` in the route table is unique: at two distinct indices of `routes` the
names differ. -/
theorem routes_names_unique (i j : Fin routes.length) (h : i ≠ j) :
    routeName (routes.get i) ≠ routeName (routes.get j) := by
  have key : ∀ a b : Fin 2, a ≠ b → routeName (routes.get a) ≠ routeName (routes.get b) := by
    decide
  exact key i j h

/-- Witness for C3 at the indices 0 and 1. -/
theorem routes_names_unique_witness :
    routeName (routes.get ⟨0, by decide⟩) ≠ routeName (routes.get ⟨1, by decide⟩) :=
  routes_names_unique ⟨0, by decide⟩ ⟨1, by decide⟩ (by decide)

/-- C4: every `path` in the route table is unique: at two distinct indices of `routes` the
paths differ, so under exact matching at most one descriptor matches any location. -/
theorem routes_paths_unique :
    (∀ i j : Fin routes.length, i ≠ j → routePath (routes.get i) ≠ routePath (routes.get j)) ∧
    (∀ loc : String, (routes.filter (fun d => matchesLocation d loc)).length ≤ 1) := by
  constructor
  · have key : ∀ a b : Fin 2, a ≠ b → routePath (routes.get a) ≠ routePath (routes.get b) := by
      decide
    exact key
  · intro loc
    have h0 : ∀ c n, routePath (.object [("path", .str "/"), ("name", n), ("component", c)])
        = some "/" := fun _ _ => rfl
    have h1 : ∀ c n, routePath (.object [("path", .str "/student"), ("name", n), ("component", c)])
        = some "/student" := fun _ _ => rfl
    by_cases a : loc = "/"
    · subst a
      decide
    · by_cases b : loc = "/student"
      · subst b
        decide
      · have a2 : ¬ "/" = loc := fun h => a h.symm
        have b2 : ¬ "/student" = loc := fun h => b h.symm
        simp [routes, matchesLocation, h0, h1, a2, b2]

/-- Witness for C4 at the indices 0 and 1 and at the location "/". -/
theorem routes_paths_unique_witness :
    routePath (routes.get ⟨0, by decide⟩) ≠ routePath (routes.get ⟨1, by decide⟩) ∧
    (routes.filter (fun d => matchesLocation d "/")).length ≤ 1 :=
  ⟨routes_paths_unique.1 ⟨0, by decide⟩ ⟨1, by decide⟩ (by decide), routes_paths_unique.2 "/"⟩

/-! ## Resolution over the table -/

/-- C5: under exact-match, first-match resolution over `routes`, the location "/" resolves
to the StudyList view, the location "/student" to the Student view, and every other location
to no descriptor at all. -/
theorem resolve_routes :
    resolveView routes "/" = some StudyList ∧
    resolveView routes "/student" = some StudentView ∧
    (∀ loc : String, loc ≠ "/" → loc ≠ "/student" → resolve routes loc = none) := by
  refine ⟨rfl, rfl, ?_⟩
  intro loc a b
  rw [resolve_routes_eq, if_neg a, if_neg b]

/-- Witness for C5 at the location "/teacher". -/
theorem resolve_routes_witness :
    "/teacher" ≠ "/" ∧ "/teacher" ≠ "/student" ∧ resolve routes "/teacher" = none :=
  ⟨by decide, by decide, resolve_routes.2.2 "/teacher" (by decide) (by decide)⟩

/-- C6: the default export is the router, which is one call of `createRouter` on a single
configuration object whose fields are exactly `history` and `routes`; `history` is the call
of `createWebHistory` (the web-history strategy of `vue-router`, not the hash one) with no
argument, and `routes` is the array of the entries of `routes`, in their order. -/
theorem router_config :
    defaultExport = router ∧
    ∃ config : JSVal,
      router = .call createRouter [config] ∧
      createRouter = .namedImport "createRouter" "vue-router" ∧
      config.keys = ["history", "routes"] ∧
      config.get? "history" = some (.call createWebHistory []) ∧
      createWebHistory = .namedImport "createWebHistory" "vue-router" ∧
      createWebHistory ≠ .namedImport "createWebHashHistory" "vue-router" ∧
      (config.get? "routes").bind JSVal.items? = some routes := by
  refine ⟨rfl, _, rfl, rfl, rfl, rfl, rfl, ?_, rfl⟩
  simp [createWebHistory]

/-- C7: every path in the route table is a parameter-free literal: it starts with "/" and
holds none of the pattern characters, and the descriptor matches a location exactly when the
location is that path. -/
theorem routes_paths_literal (d : JSVal) (hd : d ∈ routes) :
    ∃ p : String, routePath d = some p ∧
      p.toList.head? = some '/' ∧
      (∀ c ∈ patternChars, c ∉ p.toList) ∧
      (∀ loc : String, matchesLocation d loc = true ↔ loc = p) := by
  simp only [routes, List.mem_cons, List.mem_singleton, List.not_mem_nil, or_false] at hd
  rcases hd with rfl | rfl
  · refine ⟨"/", rfl, rfl, by decide, ?_⟩
    intro loc
    have h : routePath (.object [("path", .str "/"), ("name", .str "StudyList"),
        ("component", StudyList)]) = some "/" := rfl
    simp only [matchesLocation, h, beq_iff_eq, Option.some.injEq]
    exact eq_comm
  · refine ⟨"/student", rfl, rfl, by decide, ?_⟩
    intro loc
    have h : routePath (.object [("path", .str "/student"), ("name", .str "Student"),
        ("component", StudentView)]) = some "/student" := rfl
    simp only [matchesLocation, h, beq_iff_eq, Option.some.injEq]
    exact eq_comm

/-- Witness for C7 at entry 1 of the table. -/
theorem routes_paths_literal_witness :
    ∃ p : String, routePath (routes.get ⟨1, by decide⟩) = some p ∧
      p.toList.head? = some '/' ∧
      (∀ c ∈ patternChars, c ∉ p.toList) ∧
      (∀ loc : String, matchesLocation (routes.get ⟨1, by decide⟩) loc = true ↔ loc = p) :=
  routes_paths_literal (routes.get ⟨1, by decide⟩) (List.get_mem routes 1 (by decide))

/-- C8: every descriptor of the route table has exactly the fields `path`, `name` and
`component`: it has no `children`, no `beforeEnter`, no `redirect`, and its component is a
statically imported reference, not a function. -/
theorem routes_plain_descriptors (d : JSVal) (hd : d ∈ routes) :
    d.keys = ["path", "name", "component"] ∧
    d.get? "children" = none ∧
    d.get? "beforeEnter" = none ∧
    d.get? "redirect" = none ∧
    ∃ c : JSVal, routeComponent d = some c ∧ c.isFunction = false ∧ c.isImported = true := by
  simp only [routes, List.mem_cons, List.mem_singleton, List.not_mem_nil, or_false] at hd
  rcases hd with rfl | rfl
  · exact ⟨rfl, rfl, rfl, rfl, StudyList, rfl, rfl, rfl⟩
  · exact ⟨rfl, rfl, rfl, rfl, StudentView, rfl, rfl, rfl⟩

/-- Witness for C8 at entry 0 of the table. -/
theorem routes_plain_descriptors_witness :
    (routes.get ⟨0, by decide⟩).keys = ["path", "name", "component"] ∧
    (routes.get ⟨0, by decide⟩).get? "children" = none ∧
    (routes.get ⟨0, by decide⟩).get? "beforeEnter" = none ∧
    (routes.get ⟨0, by decide⟩).get? "redirect" = none ∧
    ∃ c : JSVal, routeComponent (routes.get ⟨0, by decide⟩) = some c ∧
      c.isFunction = false ∧ c.isImported = true :=
  routes_plain_descriptors (routes.get ⟨0, by decide⟩) (List.get_mem routes 0 (by decide))

/-- C9: the order of the table does not affect resolution: the table with its two entries
swapped is a different table, and every location resolves over it to what it resolves to
over `routes`. -/
theorem resolve_swap_invariant :
    swapEntries routes = routes.reverse ∧
    swapEntries routes ≠ routes ∧
    ∀ loc : String, resolve (swapEntries routes) loc = resolve routes loc := by
  refine ⟨rfl, ?_, ?_⟩
  · simp [swapEntries, routes]
  · intro loc
    have h0 : ∀ c n, routePath (.object [("path", .str "/"), ("name", n), ("component", c)])
        = some "/" := fun _ _ => rfl
    have h1 : ∀ c n, routePath (.object [("path", .str "/student"), ("name", n), ("component", c)])
        = some "/student" := fun _ _ => rfl
    rw [resolve_routes_eq]
    by_cases a : loc = "/"
    · subst a
      rfl
    · by_cases b : loc = "/student"
      · subst b
        rfl
      · have a2 : ¬ "/" = loc := fun h => a h.symm
        have b2 : ¬ "/student" = loc := fun h => b h.symm
        simp [resolve, swapEntries, routes, matchesLocation, h0, h1, a, b, a2, b2]

/-- C10: navigation by name and by path agree on the route table: each descriptor is found
under its own name and its own path; a location that resolves to a descriptor is the path of
the descriptor found under that descriptor's name; and no name other than "StudyList" and
"Student" is found. -/
theorem name_path_agree :
    (∀ d ∈ routes, ∃ n p : String, routeName d = some n ∧ lookupName routes n = some d ∧
      routePath d = some p ∧ resolve routes p = some d) ∧
    (∀ (loc : String) (d : JSVal), resolve routes loc = some d →
      ∃ (n : String) (e : JSVal), routeName d = some n ∧ lookupName routes n = some e ∧
        routePath e = some loc) ∧
    (∀ n : String, n ≠ "StudyList" → n ≠ "Student" → lookupName routes n = none) := by
  refine ⟨?_, ?_, ?_⟩
  · intro d hd
    simp only [routes, List.mem_cons, List.mem_singleton, List.not_mem_nil, or_false] at hd
    rcases hd with rfl | rfl
    · exact ⟨"StudyList", "/", rfl, rfl, rfl, rfl⟩
    · exact ⟨"Student", "/student", rfl, rfl, rfl, rfl⟩
  · intro loc d h
    rw [resolve_routes_eq] at h
    by_cases a : loc = "/"
    · subst a
      rw [if_pos rfl] at h
      obtain rfl : routes.get ⟨0, by decide⟩ = d := Option.some.inj h
      exact ⟨"StudyList", _, rfl, rfl, rfl⟩
    · rw [if_neg a] at h
      by_cases b : loc = "/student"
      · subst b
        rw [if_pos rfl] at h
        obtain rfl : routes.get ⟨1, by decide⟩ = d := Option.some.inj h
        exact ⟨"Student", _, rfl, rfl, rfl⟩
      · rw [if_neg b] at h
        exact absurd h (by simp)
  · intro n a b
    rw [lookupName_routes_eq, if_neg a, if_neg b]

/-- Witness for C10 at entry 1 of the table, at the location "/" and at the name "Teacher". -/
theorem name_path_agree_witness :
    (∃ n p : String, routeName (routes.get ⟨1, by decide⟩) = some n ∧
      lookupName routes n = some (routes.get ⟨1, by decide⟩) ∧
      routePath (routes.get ⟨1, by decide⟩) = some p ∧
      resolve routes p = some (routes.get ⟨1, by decide⟩)) ∧
    (∃ (n : String) (e : JSVal), routeName (routes.get ⟨0, by decide⟩) = some n ∧
      lookupName routes n = some e ∧ routePath e = some "/") ∧
    lookupName routes "Teacher" = none :=
  ⟨name_path_agree.1 _ (List.get_mem routes 1 (by decide)),
   name_path_agree.2.1 "/" (routes.get ⟨0, by decide⟩) rfl,
   name_path_agree.2.2 "Teacher" (by decide) (by decide)⟩

end OrthanFlow
